import Mathlib

/-!
# Verification of the drained-camera pattern in `app.py`

This file gives a shallow embedding of the concurrency core of
`plugin-camera-test/app.py` — the class `MyCamera` with its background
drain loop `_run`, its reader `snapshot`, its context-manager exit, and
the two capture-loop drivers `stream_in_buffer` / `drain_buffer` — and
proves the specification's claims about it.

The two threads (the drain-loop thread started in `__enter__`, and the
caller thread executing `snapshot`) are modelled as an interleaving
transition system: each Python statement of the critical regions is one
atomic step, the shared state carries the lock, the stop flag, the
source's buffered frame and `self.timestamp`.  Wall-clock timestamps
from `get_timestamp()` are modelled by a logical clock: the timestamp
written by the k-th completed `grab()` is the number k, which preserves
exactly the ordering facts the spec talks about.  `self.timestamp` is an
`Option Nat` because the Python attribute does not exist (reading it
raises `AttributeError`) until the first loop iteration assigns it.
-/

namespace CameraApp

/-! ## Definitions: the embedded program -/

/-- Thread identifiers: the background drain-loop thread started by
`MyCamera.__enter__`, and the caller thread running `MyCamera.snapshot`. -/
inductive Tid where
  | loop
  | snap
deriving DecidableEq, Repr

/-- Program counter of the drain-loop thread, one value per atomic
statement of `MyCamera._run`'s `while` loop (app.py lines 42–47). -/
inductive LoopPc where
  /-- `while not self.need_to_stop:` — the single flag check of an iteration. -/
  | check
  /-- `self.lock.acquire()` (line 43). -/
  | acquire
  /-- `self.cam.capture.capture.grab()` (line 44). -/
  | grab
  /-- `self.timestamp = get_timestamp()` (line 45). -/
  | stamp
  /-- `self.lock.release()` (line 46). -/
  | release
  /-- `time.sleep(sleep)` (line 47). -/
  | sleep
  /-- the `while` condition was false: `_run` returned. -/
  | exited
deriving DecidableEq, Repr

/-- Program counter of the snapshot caller, one value per atomic
statement of `MyCamera.snapshot` (app.py lines 49–56). -/
inductive SnapPc where
  /-- `self.lock.acquire()` (line 50). -/
  | acquire
  /-- `ok, data = self.cam.capture.capture.retrieve()` (line 51). -/
  | retrieve
  /-- `timestamp = self.timestamp` (line 52). -/
  | readTs
  /-- `self.lock.release()` (line 53). -/
  | release
  /-- past the release: the `ok` test and return (lines 54–56). -/
  | done
  /-- reading `self.timestamp` raised `AttributeError`; the exception
  propagates out of `snapshot` *without* executing `self.lock.release()`
  (there is no `try`/`finally` in the source). -/
  | crashed
deriving DecidableEq, Repr

/-- The shared state of a `MyCamera` object together with the local
state of the two threads. -/
structure State where
  /-- which thread currently holds `self.lock` (`none` = lock free). -/
  lock : Option Tid
  /-- `self.need_to_stop`. -/
  needToStop : Bool
  /-- number of completed `grab()` calls; doubles as the identity of the
  frame currently sitting in the source's internal buffer (`0` = nothing
  grabbed yet). -/
  grabCount : Nat
  /-- `self.timestamp`; `none` while the attribute does not exist yet. -/
  timestamp : Option Nat
  loopPc : LoopPc
  snapPc : SnapPc
  /-- snapshot's local `data`: the buffered frame `retrieve()` decoded. -/
  snapData : Option Nat
  /-- snapshot's local `timestamp` variable. -/
  snapTs : Option Nat
deriving DecidableEq, Repr

/-- One atomic step of the drain-loop thread (`MyCamera._run`,
lines 42–47); `none` when the thread is blocked or has exited. -/
def stepL (s : State) : Option State :=
  match s.loopPc with
  | .check =>
      some (if s.needToStop then { s with loopPc := .exited }
            else { s with loopPc := .acquire })
  | .acquire =>
      match s.lock with
      | none => some { s with lock := some .loop, loopPc := .grab }
      | some _ => none
  | .grab => some { s with grabCount := s.grabCount + 1, loopPc := .stamp }
  | .stamp => some { s with timestamp := some s.grabCount, loopPc := .release }
  | .release => some { s with lock := none, loopPc := .sleep }
  | .sleep => some { s with loopPc := .check }
  | .exited => none

/-- One atomic step of the snapshot caller (`MyCamera.snapshot`,
lines 49–56); `none` when blocked or crashed.  `retrieve()` decodes
whatever frame the source buffer holds; reading `self.timestamp` raises
`AttributeError` when the attribute was never assigned, leaving the lock
held.  From `done` the caller may call `snapshot()` again (the capture
loop does so at every scheduled instant) with fresh local variables. -/
def stepS (s : State) : Option State :=
  match s.snapPc with
  | .acquire =>
      match s.lock with
      | none => some { s with lock := some .snap, snapPc := .retrieve }
      | some _ => none
  | .retrieve => some { s with snapData := some s.grabCount, snapPc := .readTs }
  | .readTs =>
      match s.timestamp with
      | some t => some { s with snapTs := some t, snapPc := .release }
      | none => some { s with snapPc := .crashed }
  | .release => some { s with lock := none, snapPc := .done }
  | .done => some { s with snapPc := .acquire, snapData := none, snapTs := none }
  | .crashed => none

/-- The environment action of `MyCamera.__exit__` line 31:
`self.need_to_stop = True`.  It may fire at any point. -/
def stepStop (s : State) : Option State :=
  some { s with needToStop := true }

/-- The three possible actors of a step. -/
inductive Act where
  | loopA
  | snapA
  | stopA
deriving DecidableEq, Repr

/-- Dispatch a step by actor. -/
def stepOf : Act → State → Option State
  | .loopA => stepL
  | .snapA => stepS
  | .stopA => stepStop

/-- The interleaving step relation: some actor takes an enabled step. -/
def Step (s s' : State) : Prop :=
  ∃ a : Act, stepOf a s = some s'

/-- Zero or more interleaved steps. -/
def Steps : State → State → Prop :=
  Relation.ReflTransGen Step

/-- State right after `MyCamera.__enter__` returned: lock free, stop
flag clear, nothing grabbed, `self.timestamp` unassigned, the loop
thread about to test the `while` condition, the snapshot caller about to
acquire the lock. -/
def init : State :=
  { lock := none
    needToStop := false
    grabCount := 0
    timestamp := none
    loopPc := .check
    snapPc := .acquire
    snapData := none
    snapTs := none }

/-- Reachable from the post-`__enter__` state. -/
def Reachable (s : State) : Prop :=
  Steps init s

/-- Run one actor's step, staying put when it is not enabled. -/
def applyAct (a : Act) (s : State) : State :=
  (stepOf a s).getD s

/-- Run a whole schedule of actors, skipping disabled steps. -/
def applyTrace (tr : List Act) (s : State) : State :=
  tr.foldl (fun s a => applyAct a s) s

/-- The drain-loop thread is inside its critical section: it has passed
`self.lock.acquire()` (line 43) and has not yet executed
`self.lock.release()` (line 46). -/
def loopInCS (s : State) : Prop :=
  s.loopPc = .grab ∨ s.loopPc = .stamp ∨ s.loopPc = .release

/-- The snapshot caller is inside its critical section: it has passed
`self.lock.acquire()` (line 50) and has not executed
`self.lock.release()` (line 53) — in particular a caller that crashed on
`self.timestamp` still holds the lock. -/
def snapInCS (s : State) : Prop :=
  s.snapPc = .retrieve ∨ s.snapPc = .readTs ∨ s.snapPc = .release ∨
    s.snapPc = .crashed

instance (s : State) : Decidable (loopInCS s) := by unfold loopInCS; infer_instance

instance (s : State) : Decidable (snapInCS s) := by unfold snapInCS; infer_instance

/-- The value of `self.timestamp` after `k` completed grab/stamp pairs:
unassigned for `k = 0`, the logical stamp `k` afterwards. -/
def tsOf (k : Nat) : Option Nat :=
  if k = 0 then none else some k

/-- Coherence of `self.timestamp` with the grab counter: except in the
window between `grab()` and the `self.timestamp` assignment (where the
stamp still belongs to the previous grab), the slot's timestamp is the
one of the latest completed grab. -/
def tsOK (s : State) : Prop :=
  if s.loopPc = .stamp then 1 ≤ s.grabCount ∧ s.timestamp = tsOf (s.grabCount - 1)
  else s.timestamp = tsOf s.grabCount

instance (s : State) : Decidable (tsOK s) := by unfold tsOK; infer_instance

/-- Global inductive invariant: lock ownership matches the thread
program counters, the timestamp is coherent with the grab counter, and
the snapshot-local variables hold values of the critical section they
were read in. -/
def Inv (s : State) : Prop :=
  (loopInCS s ↔ s.lock = some .loop) ∧
  (snapInCS s ↔ s.lock = some .snap) ∧
  tsOK s ∧
  (s.snapPc = .readTs → s.snapData = some s.grabCount) ∧
  (s.snapPc = .release → s.snapData = some s.grabCount ∧ s.snapTs = some s.grabCount) ∧
  (s.snapPc = .done → s.snapData = s.snapTs) ∧
  ((s.snapPc = .acquire ∨ s.snapPc = .retrieve) → s.snapTs = none)

instance (s : State) : Decidable (Inv s) := by unfold Inv; infer_instance

/-- Monotonicity core for C2: once the grab counter, the slot timestamp
and the snapshot-local timestamp are all at least `k`, one interleaved
step keeps them so (grabs only increment; the stamp writes the current
grab counter; the snapshot read copies the current stamp). -/
def Fresh (k : Nat) (x : State) : Prop :=
  k ≤ x.grabCount ∧ (∀ m, x.timestamp = some m → k ≤ m) ∧
    (∀ m, x.snapTs = some m → k ≤ m)

/-- The state reached when the snapshot caller wins the race against the
drain loop's first iteration: it acquires the lock, runs `retrieve()`,
and then `timestamp = self.timestamp` raises `AttributeError` (the
attribute is only created by `_run`).  No `release()` executes. -/
def crashState : State := applyTrace [Act.snapA, Act.snapA, Act.snapA] init

/-- The shape of every state reachable after the crash: the lock is
still owned by the crashed snapshot caller, no grab ever completes, and
the drain loop is stuck at (or before) its `acquire`. -/
def Deadlocked (x : State) : Prop :=
  x.lock = some .snap ∧ x.snapPc = .crashed ∧ x.grabCount = 0 ∧
    (x.loopPc = .check ∨ x.loopPc = .acquire ∨ x.loopPc = .exited)

instance (x : State) : Decidable (Deadlocked x) := by
  unfold Deadlocked; infer_instance

/-- `1` exactly when the drain loop has already passed this iteration's
single `while not self.need_to_stop` check but has not yet done the
iteration's grab. -/
def pendingGrab (s : State) : Nat :=
  if s.loopPc = .acquire ∨ s.loopPc = .grab then 1 else 0

/-- The drain-loop thread stepping alone (other threads scheduled out);
a disabled step leaves the state unchanged. -/
def stepLD (s : State) : State :=
  (stepL s).getD s

/-- Run the drain-loop thread alone for `n` steps. -/
def runLoopAlone : Nat → State → State
  | 0, s => s
  | n + 1, s => runLoopAlone n (stepLD s)

/-- In a window during which the latest completed grab stays grab `g`,
every timestamp observable in the slot (outside the loop's pending-stamp
window) and every timestamp a snapshot read has stored is exactly the
stamp of grab `g`. -/
def WindowTs (g : Nat) (x : State) : Prop :=
  (x.loopPc ≠ .stamp → ∀ m, x.timestamp = some m → m = g) ∧
  (∀ m, x.snapTs = some m → m = g)

/-- The computation at the top of `MyCamera._run` (lines 37–40): `fps`
is `self.cam.capture.capture.get(cv2.CAP_PROP_FPS)` (an exact rational
here), then `sleep = 0.01; if fps > 0: sleep = 1 / (fps + 1)`.  This
runs once, before the `while` loop is entered. -/
def computeSleep (fps : ℚ) : ℚ :=
  let sleep : ℚ := 0.01
  if fps > 0 then 1 / (fps + 1) else sleep

/-- The value `MyCamera.snapshot` builds on success:
`ImageSample(data=data, timestamp=timestamp, format=RGB)` (line 56).
The constant `format=RGB` is not modelled; the decoded frame is its
id. -/
structure Sample where
  data : Nat
  timestamp : Nat
deriving DecidableEq, Repr

/-- The tail of `MyCamera.snapshot` (lines 51–56) as a function of what
`retrieve()` returned and the timestamp read from the slot:
`if not ok: raise RuntimeError("failed to retrieve the taken snapshot")`,
else return the sample. -/
def snapshotResult (ok : Bool) (data timestamp : Nat) :
    Except String Sample :=
  if !ok then Except.error "failed to retrieve the taken snapshot"
  else Except.ok { data := data, timestamp := timestamp }

/-- The `while True` body of `drain_buffer` (lines 83–93) iterated over
the sequence of `(ok, data, timestamp)` triples the camera produces:
each iteration calls `snapshot()` and keeps its sample (then saves and
uploads it).  There is no `try` anywhere on this path, so a raised
`RuntimeError` propagates out of the loop — and, through `run`, out of
the process — before any later iteration runs. -/
def drainBufferRun : List (Bool × Nat × Nat) → Except String (List Sample)
  | [] => Except.ok []
  | (ok, data, ts) :: rest => do
      let sample ← snapshotResult ok data ts
      let others ← drainBufferRun rest
      pure (sample :: others)

/-- The three statements of `MyCamera.__exit__` (lines 30–33), in source
order: `self.need_to_stop = True`, `self.my_loop.join()` (returns only
once `_run` has exited), and `self.cam.__exit__(...)` — the waggle
`Camera` context exit, which releases the underlying video source. -/
inductive ExitEvent where
  | setStopFlag
  | joinLoopThread
  | releaseSource
deriving DecidableEq, Repr

/-- The straight-line body of `MyCamera.__exit__` as its event trace. -/
def exitSequence : List ExitEvent :=
  [ExitEvent.setStopFlag, ExitEvent.joinLoopThread, ExitEvent.releaseSource]

/-- The camera object driving a capture loop: `Camera(stream)` in
`stream_in_buffer`, `MyCamera(stream)` in `drain_buffer`. -/
inductive CamObj where
  | plainCamera
  | myCamera
deriving DecidableEq, Repr

/-- One observable step of a capture-loop iteration. -/
inductive CaptureStep where
  /-- `n = cron.get_next(...)`; `now = ...`; `next_in_seconds = ...`. -/
  | scheduleNext
  /-- `time.sleep(next_in_seconds)` (only when the wait is positive). -/
  | sleepFor (seconds : ℚ)
  /-- `sample = cap.snapshot()` on the given camera object. -/
  | takeSnapshot (cam : CamObj)
  /-- `sample.save("sample.jpg")`. -/
  | saveSample (path : String)
  /-- `plugin.upload_file("sample.jpg")`. -/
  | uploadFile (path : String)
deriving DecidableEq, Repr

/-- One iteration of `stream_in_buffer`'s `while True` (lines 66–76),
with the computed wait abstracted as input. -/
def stream_in_buffer_iter (nextInSeconds : ℚ) : List CaptureStep :=
  [CaptureStep.scheduleNext] ++
    (if nextInSeconds > 0 then [CaptureStep.sleepFor nextInSeconds] else []) ++
    [CaptureStep.takeSnapshot CamObj.plainCamera,
     CaptureStep.saveSample "sample.jpg",
     CaptureStep.uploadFile "sample.jpg"]

/-- One iteration of `drain_buffer`'s `while True` (lines 83–93), with
the computed wait abstracted as input. -/
def drain_buffer_iter (nextInSeconds : ℚ) : List CaptureStep :=
  [CaptureStep.scheduleNext] ++
    (if nextInSeconds > 0 then [CaptureStep.sleepFor nextInSeconds] else []) ++
    [CaptureStep.takeSnapshot CamObj.myCamera,
     CaptureStep.saveSample "sample.jpg",
     CaptureStep.uploadFile "sample.jpg"]

/-- The steps of a whole `stream_in_buffer` run over the successive
waits its cron schedule produces. -/
def stream_in_buffer_run (waits : List ℚ) : List CaptureStep :=
  waits.flatMap stream_in_buffer_iter

/-- The steps of a whole `drain_buffer` run over the successive waits
its cron schedule produces. -/
def drain_buffer_run (waits : List ℚ) : List CaptureStep :=
  waits.flatMap drain_buffer_iter

/-- Substitute the camera object a snapshot step acts on, leaving all
other steps untouched. -/
def setCam (c : CamObj) : CaptureStep → CaptureStep
  | CaptureStep.takeSnapshot _ => CaptureStep.takeSnapshot c
  | st => st

/-! ## Theorems -/

theorem steps_applyAct (a : Act) (s : State) : Steps s (applyAct a s) := by
  unfold applyAct
  cases h : stepOf a s with
  | none => exact Relation.ReflTransGen.refl
  | some s' => exact Relation.ReflTransGen.single ⟨a, h⟩

theorem steps_applyTrace (tr : List Act) (s : State) :
    Steps s (applyTrace tr s) := by
  induction tr generalizing s with
  | nil => exact Relation.ReflTransGen.refl
  | cons a tr ih =>
      exact Relation.ReflTransGen.trans (steps_applyAct a s) (ih (applyAct a s))

theorem reachable_applyTrace (tr : List Act) : Reachable (applyTrace tr init) :=
  steps_applyTrace tr init

theorem inv_init : Inv init := by decide

theorem inv_stepL (s s' : State) (hInv : Inv s) (h : stepL s = some s') :
    Inv s' := by
  obtain ⟨h1, h2, h3, h4, h5, h6, h7⟩ := hInv
  unfold stepL at h
  cases hpc : s.loopPc <;> rw [hpc] at h
  case check =>
    simp only [Option.some.injEq] at h
    by_cases hstop : s.needToStop = true <;>
      simp only [hstop, if_true, if_false, Bool.not_eq_true] at h <;> subst h <;>
      refine ⟨?_, ?_, ?_, h4, h5, h6, h7⟩ <;>
      simp_all [Inv, loopInCS, snapInCS, tsOK]
  case acquire =>
    cases hl : s.lock <;> rw [hl] at h <;> simp only [Option.some.injEq] at h
    · subst h
      refine ⟨?_, ?_, ?_, h4, h5, h6, h7⟩ <;>
        simp_all [loopInCS, snapInCS, tsOK]
    · exact absurd h (by simp)
  case grab =>
    simp only [Option.some.injEq] at h
    subst h
    have hlock : s.lock = some .loop := h1.mp (by simp [loopInCS, hpc])
    have hsnap : ¬ snapInCS s := by
      intro hc
      rw [h2.mp hc] at hlock
      exact absurd hlock (by simp)
    refine ⟨?_, ?_, ?_, ?_, ?_, h6, h7⟩ <;>
      simp_all [loopInCS, snapInCS, tsOK]
  case stamp =>
    simp only [Option.some.injEq] at h
    subst h
    rw [tsOK, if_pos hpc] at h3
    refine ⟨?_, ?_, ?_, h4, h5, h6, h7⟩ <;>
      simp_all [loopInCS, snapInCS, tsOK, tsOf]
    omega
  case release =>
    simp only [Option.some.injEq] at h
    subst h
    have hlock : s.lock = some .loop := h1.mp (by simp [loopInCS, hpc])
    have hsnap : ¬ snapInCS s := by
      intro hc
      rw [h2.mp hc] at hlock
      exact absurd hlock (by simp)
    refine ⟨?_, ?_, ?_, h4, h5, h6, h7⟩ <;>
      simp_all [loopInCS, snapInCS, tsOK]
  case sleep =>
    simp only [Option.some.injEq] at h
    subst h
    refine ⟨?_, ?_, ?_, h4, h5, h6, h7⟩ <;>
      simp_all [loopInCS, snapInCS, tsOK]
  case exited => exact absurd h (by simp)

theorem inv_stepS (s s' : State) (hInv : Inv s) (h : stepS s = some s') :
    Inv s' := by
  obtain ⟨h1, h2, h3, h4, h5, h6, h7⟩ := hInv
  unfold stepS at h
  cases hpc : s.snapPc <;> rw [hpc] at h
  case acquire =>
    cases hl : s.lock <;> rw [hl] at h <;> simp only [Option.some.injEq] at h
    · subst h
      have hloop : ¬ loopInCS s := by
        intro hc
        rw [h1.mp hc] at hl
        exact absurd hl (by simp)
      have hstamp : s.loopPc ≠ .stamp := by
        intro hc
        exact hloop (by simp [loopInCS, hc])
      rw [tsOK, if_neg hstamp] at h3
      refine ⟨?_, ?_, ?_, ?_, ?_, ?_, ?_⟩ <;>
        simp_all [loopInCS, snapInCS, tsOK]
    · exact absurd h (by simp)
  case retrieve =>
    simp only [Option.some.injEq] at h
    subst h
    refine ⟨?_, ?_, ?_, ?_, ?_, ?_, ?_⟩ <;>
      simp_all [loopInCS, snapInCS, tsOK]
  case readTs =>
    have hlock : s.lock = some .snap := h2.mp (by simp [snapInCS, hpc])
    have hloop : ¬ loopInCS s := by
      intro hc
      rw [h1.mp hc] at hlock
      exact absurd hlock (by simp)
    have hstamp : s.loopPc ≠ .stamp := by
      intro hc
      exact hloop (by simp [loopInCS, hc])
    rw [tsOK, if_neg hstamp] at h3
    cases hts : s.timestamp <;> rw [hts] at h <;> simp only [Option.some.injEq] at h
    · subst h
      refine ⟨?_, ?_, ?_, ?_, ?_, ?_, ?_⟩ <;>
        simp_all [loopInCS, snapInCS, tsOK]
    · subst h
      rw [hts, tsOf] at h3
      have hgc : s.grabCount ≠ 0 := by
        intro hc
        rw [hc] at h3
        exact absurd h3 (by simp)
      rw [if_neg hgc] at h3
      refine ⟨?_, ?_, ?_, ?_, ?_, ?_, ?_⟩ <;>
        simp_all [loopInCS, snapInCS, tsOK, tsOf, h4 hpc]
  case release =>
    simp only [Option.some.injEq] at h
    subst h
    have hlock : s.lock = some .snap := h2.mp (by simp [snapInCS, hpc])
    have hloop : ¬ loopInCS s := by
      intro hc
      rw [h1.mp hc] at hlock
      exact absurd hlock (by simp)
    obtain ⟨hd, ht⟩ := h5 hpc
    refine ⟨?_, ?_, ?_, ?_, ?_, ?_, ?_⟩ <;>
      simp_all [loopInCS, snapInCS, tsOK, tsOf]
  case done =>
    simp only [Option.some.injEq] at h
    subst h
    have hns : ¬ snapInCS s := by simp [snapInCS, hpc]
    have hlock : ¬ s.lock = some Tid.snap := fun hc => hns (h2.mpr hc)
    refine ⟨?_, ?_, ?_, ?_, ?_, ?_, ?_⟩ <;>
      simp_all [loopInCS, snapInCS, tsOK]
  case crashed => exact absurd h (by simp)

theorem inv_step (s s' : State) (hInv : Inv s) (h : Step s s') : Inv s' := by
  obtain ⟨a, ha⟩ := h
  cases a with
  | loopA => exact inv_stepL s s' hInv ha
  | snapA => exact inv_stepS s s' hInv ha
  | stopA =>
      obtain ⟨h1, h2, h3, h4, h5, h6, h7⟩ := hInv
      simp only [stepOf, stepStop, Option.some.injEq] at ha
      subst ha
      exact ⟨h1, h2, h3, h4, h5, h6, h7⟩

theorem inv_of_steps (s s' : State) (hInv : Inv s) (h : Steps s s') : Inv s' := by
  induction h with
  | refl => exact hInv
  | tail _ hstep ih => exact inv_step _ _ ih hstep

theorem inv_reachable (s : State) (h : Reachable s) : Inv s :=
  inv_of_steps init s inv_init h

/-- C1: every write of the frame slot (grab + timestamp, one drain-loop
iteration of `MyCamera._run`) and every read of it (retrieve + timestamp
in `MyCamera.snapshot`) happens while holding `self.lock`, so in every
reachable interleaving the two critical sections are mutually exclusive;
consequently a completed snapshot holds a coherent frame/timestamp pair
(in the logical-clock model, the frame id and the stamp of grab `k` are
both `k`, so an untorn pair satisfies `snapData = snapTs`). -/
theorem frame_slot_mutual_exclusion (s : State) (h : Reachable s) :
    ¬ (loopInCS s ∧ snapInCS s) ∧
    (s.snapPc = .done → s.snapData = s.snapTs) := by
  obtain ⟨h1, h2, _, _, _, h6, _⟩ := inv_reachable s h
  refine ⟨?_, h6⟩
  rintro ⟨hl, hs⟩
  have hll := h1.mp hl
  rw [h2.mp hs] at hll
  exact absurd hll (by simp)

/-- Witness for C1 at a state where the snapshot has completed: one full
drain-loop iteration, then a full snapshot call. -/
theorem frame_slot_mutual_exclusion_witness :
    ¬ (loopInCS (applyTrace [.loopA, .loopA, .loopA, .loopA, .loopA,
          .snapA, .snapA, .snapA, .snapA] init) ∧
       snapInCS (applyTrace [.loopA, .loopA, .loopA, .loopA, .loopA,
          .snapA, .snapA, .snapA, .snapA] init)) ∧
    ((applyTrace [.loopA, .loopA, .loopA, .loopA, .loopA,
          .snapA, .snapA, .snapA, .snapA] init).snapPc = .done →
      (applyTrace [.loopA, .loopA, .loopA, .loopA, .loopA,
          .snapA, .snapA, .snapA, .snapA] init).snapData =
      (applyTrace [.loopA, .loopA, .loopA, .loopA, .loopA,
          .snapA, .snapA, .snapA, .snapA] init).snapTs) :=
  frame_slot_mutual_exclusion _ (reachable_applyTrace _)

theorem freshness_stepL (k : Nat) (x y : State) (ha : stepL x = some y)
    (hx : Fresh k x) : Fresh k y := by
  obtain ⟨hg, ht, hs⟩ := hx
  unfold stepL at ha
  cases hpc : x.loopPc <;> rw [hpc] at ha
  case check =>
    simp only [Option.some.injEq] at ha
    by_cases hstop : x.needToStop = true <;>
      simp only [hstop, if_true, if_false, Bool.not_eq_true] at ha <;>
      subst ha <;> exact ⟨hg, ht, hs⟩
  case acquire =>
    cases hl : x.lock <;> rw [hl] at ha <;> simp only [Option.some.injEq] at ha
    · subst ha; exact ⟨hg, ht, hs⟩
    · exact absurd ha (by simp)
  case grab =>
    simp only [Option.some.injEq] at ha
    subst ha
    exact ⟨by simpa using Nat.le_succ_of_le hg, ht, hs⟩
  case stamp =>
    simp only [Option.some.injEq] at ha
    subst ha
    refine ⟨hg, ?_, hs⟩
    intro m hm
    simp only [Option.some.injEq] at hm
    omega
  case release =>
    simp only [Option.some.injEq] at ha
    subst ha; exact ⟨hg, ht, hs⟩
  case sleep =>
    simp only [Option.some.injEq] at ha
    subst ha; exact ⟨hg, ht, hs⟩
  case exited => exact absurd ha (by simp)

theorem freshness_stepS (k : Nat) (x y : State) (ha : stepS x = some y)
    (hx : Fresh k x) : Fresh k y := by
  obtain ⟨hg, ht, hs⟩ := hx
  unfold stepS at ha
  cases hpc : x.snapPc <;> rw [hpc] at ha
  case acquire =>
    cases hl : x.lock <;> rw [hl] at ha <;> simp only [Option.some.injEq] at ha
    · subst ha; exact ⟨hg, ht, hs⟩
    · exact absurd ha (by simp)
  case retrieve =>
    simp only [Option.some.injEq] at ha
    subst ha; exact ⟨hg, ht, hs⟩
  case readTs =>
    cases hts : x.timestamp <;> rw [hts] at ha <;>
      simp only [Option.some.injEq] at ha
    · subst ha
      refine ⟨hg, ?_, hs⟩
      intro m hm
      simp at hm
    · subst ha
      have hk := ht _ hts
      refine ⟨hg, ?_, ?_⟩ <;> intro m hm <;>
        simp only [Option.some.injEq] at hm <;> omega
  case release =>
    simp only [Option.some.injEq] at ha
    subst ha; exact ⟨hg, ht, hs⟩
  case done =>
    simp only [Option.some.injEq] at ha
    subst ha
    refine ⟨hg, ht, ?_⟩
    intro m hm
    simp at hm
  case crashed => exact absurd ha (by simp)

theorem freshness_step (k : Nat) (x y : State) (h : Step x y)
    (hx : Fresh k x) : Fresh k y := by
  obtain ⟨a, ha⟩ := h
  cases a with
  | loopA => exact freshness_stepL k x y ha hx
  | snapA => exact freshness_stepS k x y ha hx
  | stopA =>
      simp only [stepOf, stepStop, Option.some.injEq] at ha
      subst ha
      exact hx

theorem fresh_of_steps (k : Nat) (x y : State) (h : Steps x y)
    (hx : Fresh k x) : Fresh k y := by
  induction h with
  | refl => exact hx
  | tail _ hstep ih => exact freshness_step k _ _ hstep ih

/-- C2: `snapshot()` never returns a stale timestamp.  If at some
reachable state the slot timestamp of a completed grab is `k` and the
snapshot caller has not yet executed its `timestamp = self.timestamp`
read, then whatever timestamp a later read observes is at least `k`:
once a newer grab's write completes, no subsequent snapshot observes an
older timestamp (no queueing, no historical frames). -/
theorem snapshot_returns_latest_timestamp (s s' : State) (k t : Nat)
    (hreach : Reachable s) (hsteps : Steps s s')
    (hwrite : s.timestamp = some k) (hunread : s.snapTs = none)
    (hread : s'.snapTs = some t) : k ≤ t := by
  have h3 := (inv_reachable s hreach).2.2.1
  rw [tsOK] at h3
  have hbase : k ≤ s.grabCount := by
    by_cases hst : s.loopPc = .stamp
    · rw [if_pos hst] at h3
      obtain ⟨hge, heq⟩ := h3
      rw [hwrite, tsOf] at heq
      by_cases hz : s.grabCount - 1 = 0
      · rw [if_pos hz] at heq
        exact absurd heq (by simp)
      · rw [if_neg hz] at heq
        simp only [Option.some.injEq] at heq
        omega
    · rw [if_neg hst] at h3
      rw [hwrite, tsOf] at h3
      by_cases hz : s.grabCount = 0
      · rw [if_pos hz] at h3
        exact absurd h3 (by simp)
      · rw [if_neg hz] at h3
        simp only [Option.some.injEq] at h3
        omega
  have hstart : Fresh k s := by
    refine ⟨hbase, ?_, ?_⟩
    · intro m hm
      rw [hwrite] at hm
      simp only [Option.some.injEq] at hm
      omega
    · intro m hm
      rw [hunread] at hm
      exact absurd hm (by simp)
  exact (fresh_of_steps k s s' hsteps hstart).2.2 t hread

/-- Witness for C2: after one full drain-loop iteration the stamp is
`1`; a snapshot completing afterwards reads timestamp `1 ≥ 1`. -/
theorem snapshot_returns_latest_timestamp_witness :
    (applyTrace [Act.loopA, Act.loopA, Act.loopA, Act.loopA] init).timestamp = some 1 ∧
    (applyTrace [Act.loopA, Act.snapA, Act.snapA, Act.snapA]
      (applyTrace [Act.loopA, Act.loopA, Act.loopA, Act.loopA] init)).snapTs = some 1 ∧
    (1 : Nat) ≤ 1 :=
  ⟨by decide, by decide,
    snapshot_returns_latest_timestamp
      (applyTrace [Act.loopA, Act.loopA, Act.loopA, Act.loopA] init)
      (applyTrace [Act.loopA, Act.snapA, Act.snapA, Act.snapA]
        (applyTrace [Act.loopA, Act.loopA, Act.loopA, Act.loopA] init))
      1 1 (reachable_applyTrace _) (steps_applyTrace _ _)
      (by decide) (by decide) (by decide)⟩

theorem deadlocked_stepL (x y : State) (hx : Deadlocked x)
    (ha : stepL x = some y) : Deadlocked y := by
  obtain ⟨hl, hsn, hg, hpc⟩ := hx
  unfold stepL at ha
  rcases hpc with hpc | hpc | hpc <;> rw [hpc] at ha
  · simp only [Option.some.injEq] at ha
    by_cases hstop : x.needToStop = true <;>
      simp only [hstop, if_true, if_false, Bool.not_eq_true] at ha <;>
      subst ha <;> exact ⟨hl, hsn, hg, by simp⟩
  · rw [hl] at ha
    exact absurd ha (by simp)
  · exact absurd ha (by simp)

theorem deadlocked_stepS (x y : State) (hx : Deadlocked x)
    (ha : stepS x = some y) : Deadlocked y := by
  unfold stepS at ha
  rw [hx.2.1] at ha
  exact absurd ha (by simp)

theorem deadlocked_step (x y : State) (hx : Deadlocked x) (h : Step x y) :
    Deadlocked y := by
  obtain ⟨a, ha⟩ := h
  cases a with
  | loopA => exact deadlocked_stepL x y hx ha
  | snapA => exact deadlocked_stepS x y hx ha
  | stopA =>
      simp only [stepOf, stepStop, Option.some.injEq] at ha
      subst ha
      exact ⟨hx.1, hx.2.1, hx.2.2.1, by simpa using hx.2.2.2⟩

theorem deadlocked_steps (x y : State) (hx : Deadlocked x)
    (h : Steps x y) : Deadlocked y := by
  induction h with
  | refl => exact hx
  | tail _ hstep ih => exact deadlocked_step _ _ ih hstep

/-- C9: if `snapshot()` runs before the first drain-loop iteration has
assigned `self.timestamp`, the attribute read raises `AttributeError`
after `self.lock.acquire()` and before `self.lock.release()` (there is
no `try`/`finally`), the interleaving reaching this crash is reachable
from the start state, and from then on the lock is held forever: in
every later state the crashed caller still owns the lock, the drain loop
never completes a grab and never enters its critical section, and any
lock acquisition stays blocked. -/
theorem snapshot_before_first_grab_deadlocks :
    (Reachable crashState ∧ crashState.snapPc = .crashed ∧
      crashState.lock = some .snap ∧ crashState.timestamp = none ∧
      crashState.grabCount = 0) ∧
    ∀ s', Steps crashState s' →
      s'.lock = some .snap ∧ s'.snapPc = .crashed ∧ s'.grabCount = 0 ∧
        ¬ loopInCS s' := by
  refine ⟨⟨reachable_applyTrace _, by decide, by decide, by decide, by decide⟩,
    ?_⟩
  intro s' hsteps
  have hd : Deadlocked s' :=
    deadlocked_steps crashState s' (by decide) hsteps
  obtain ⟨hl, hsn, hg, hpc⟩ := hd
  refine ⟨hl, hsn, hg, ?_⟩
  intro hc
  rcases hpc with hpc | hpc | hpc <;> rw [loopInCS, hpc] at hc <;> simp at hc

/-- Witness for C9's universally quantified part, applied at the crash
state itself. -/
theorem snapshot_before_first_grab_deadlocks_witness :
    crashState.lock = some Tid.snap ∧ crashState.snapPc = SnapPc.crashed ∧
      crashState.grabCount = 0 ∧ ¬ loopInCS crashState :=
  snapshot_before_first_grab_deadlocks.2 crashState Relation.ReflTransGen.refl

theorem stop_bound_stepL (x y : State) (hstop : x.needToStop = true)
    (ha : stepL x = some y) :
    y.needToStop = true ∧
      y.grabCount + pendingGrab y ≤ x.grabCount + pendingGrab x := by
  unfold stepL at ha
  cases hpc : x.loopPc <;> rw [hpc] at ha
  case check =>
    simp only [Option.some.injEq, hstop, if_true] at ha
    subst ha
    exact ⟨rfl, by simp [pendingGrab, hpc]⟩
  case acquire =>
    cases hl : x.lock <;> rw [hl] at ha <;>
      simp only [Option.some.injEq] at ha
    · subst ha
      exact ⟨hstop, by simp [pendingGrab, hpc]⟩
    · exact absurd ha (by simp)
  case grab =>
    simp only [Option.some.injEq] at ha
    subst ha
    exact ⟨hstop, by simp [pendingGrab, hpc]⟩
  case stamp =>
    simp only [Option.some.injEq] at ha
    subst ha
    exact ⟨hstop, by simp [pendingGrab, hpc]⟩
  case release =>
    simp only [Option.some.injEq] at ha
    subst ha
    exact ⟨hstop, by simp [pendingGrab, hpc]⟩
  case sleep =>
    simp only [Option.some.injEq] at ha
    subst ha
    exact ⟨hstop, by simp [pendingGrab, hpc]⟩
  case exited => exact absurd ha (by simp)

theorem stop_bound_stepS (x y : State) (hstop : x.needToStop = true)
    (ha : stepS x = some y) :
    y.needToStop = true ∧
      y.grabCount + pendingGrab y ≤ x.grabCount + pendingGrab x := by
  unfold stepS at ha
  cases hpc : x.snapPc <;> rw [hpc] at ha
  case acquire =>
    cases hl : x.lock <;> rw [hl] at ha <;>
      simp only [Option.some.injEq] at ha
    · subst ha
      exact ⟨hstop, by simp [pendingGrab]⟩
    · exact absurd ha (by simp)
  case retrieve =>
    simp only [Option.some.injEq] at ha
    subst ha
    exact ⟨hstop, by simp [pendingGrab]⟩
  case readTs =>
    cases hts : x.timestamp <;> rw [hts] at ha <;>
      simp only [Option.some.injEq] at ha <;> subst ha <;>
      exact ⟨hstop, by simp [pendingGrab]⟩
  case release =>
    simp only [Option.some.injEq] at ha
    subst ha
    exact ⟨hstop, by simp [pendingGrab]⟩
  case done =>
    simp only [Option.some.injEq] at ha
    subst ha
    exact ⟨hstop, by simp [pendingGrab]⟩
  case crashed => exact absurd ha (by simp)

theorem stop_bound_step (x y : State) (hstop : x.needToStop = true)
    (h : Step x y) :
    y.needToStop = true ∧
      y.grabCount + pendingGrab y ≤ x.grabCount + pendingGrab x := by
  obtain ⟨a, ha⟩ := h
  cases a with
  | loopA => exact stop_bound_stepL x y hstop ha
  | snapA => exact stop_bound_stepS x y hstop ha
  | stopA =>
      simp only [stepOf, stepStop, Option.some.injEq] at ha
      subst ha
      exact ⟨rfl, by simp [pendingGrab]⟩

theorem stop_bound_steps (x y : State) (hstop : x.needToStop = true)
    (h : Steps x y) :
    y.needToStop = true ∧
      y.grabCount + pendingGrab y ≤ x.grabCount + pendingGrab x := by
  induction h with
  | refl => exact ⟨hstop, Nat.le_refl _⟩
  | tail _ hstep ih =>
      obtain ⟨h1, h2⟩ := ih
      obtain ⟨h1', h2'⟩ := stop_bound_step _ _ h1 hstep
      exact ⟨h1', Nat.le_trans h2' h2⟩

theorem loop_alone_terminates (s : State) (hstop : s.needToStop = true)
    (hInv : Inv s) (hlock : s.lock ≠ some Tid.snap) :
    (runLoopAlone 6 s).loopPc = .exited := by
  obtain ⟨h1, _, _, _, _, _, _⟩ := hInv
  cases hpc : s.loopPc
  case acquire =>
    have hl : s.lock = none := by
      cases hl : s.lock with
      | none => rfl
      | some t =>
          cases t
          · exact absurd (h1.mpr hl) (by simp [loopInCS, hpc])
          · exact absurd hl hlock
    simp [runLoopAlone, stepLD, stepL, hpc, hstop, hl]
  all_goals simp [runLoopAlone, stepLD, stepL, hpc, hstop]

/-- C5: the drain loop tests `self.need_to_stop` exactly once per
iteration (the single `.check` step of the loop cycle), hence (i) in
every interleaving, after the stop flag is set at most one more grab is
performed, and (ii) whenever the snapshot caller does not hold the lock,
the loop thread by itself reaches `exited` within the six atomic
statements of one last grab-plus-sleep iteration: stop latency is
bounded by one iteration, i.e. one sleep interval. -/
theorem stop_latency_bounded (s s' : State) (hreach : Reachable s)
    (hsteps : Steps s s') (hstop : s.needToStop = true) :
    s'.grabCount ≤ s.grabCount + 1 ∧
    (s.lock ≠ some Tid.snap → (runLoopAlone 6 s).loopPc = .exited) := by
  constructor
  · have h := (stop_bound_steps s s' hstop hsteps).2
    have h1 : pendingGrab s ≤ 1 := by unfold pendingGrab; split <;> omega
    have h2 : 0 ≤ pendingGrab s' := Nat.zero_le _
    omega
  · intro hlock
    exact loop_alone_terminates s hstop (inv_reachable s hreach) hlock

theorem grabCount_mono_stepL (x y : State) (ha : stepL x = some y) :
    x.grabCount ≤ y.grabCount := by
  unfold stepL at ha
  cases hpc : x.loopPc <;> rw [hpc] at ha
  case check =>
    simp only [Option.some.injEq] at ha
    by_cases hstop : x.needToStop = true <;>
      simp only [hstop, if_true, if_false, Bool.not_eq_true] at ha <;>
      subst ha <;> exact Nat.le_refl _
  case acquire =>
    cases hl : x.lock <;> rw [hl] at ha <;> simp only [Option.some.injEq] at ha
    · subst ha; exact Nat.le_refl _
    · exact absurd ha (by simp)
  case grab =>
    simp only [Option.some.injEq] at ha
    subst ha
    exact Nat.le_succ _
  case stamp =>
    simp only [Option.some.injEq] at ha
    subst ha; exact Nat.le_refl _
  case release =>
    simp only [Option.some.injEq] at ha
    subst ha; exact Nat.le_refl _
  case sleep =>
    simp only [Option.some.injEq] at ha
    subst ha; exact Nat.le_refl _
  case exited => exact absurd ha (by simp)

theorem grabCount_stepS (x y : State) (ha : stepS x = some y) :
    y.grabCount = x.grabCount := by
  unfold stepS at ha
  cases hpc : x.snapPc <;> rw [hpc] at ha
  case acquire =>
    cases hl : x.lock <;> rw [hl] at ha <;> simp only [Option.some.injEq] at ha
    · subst ha; rfl
    · exact absurd ha (by simp)
  case retrieve =>
    simp only [Option.some.injEq] at ha
    subst ha; rfl
  case readTs =>
    cases hts : x.timestamp <;> rw [hts] at ha <;>
      simp only [Option.some.injEq] at ha <;> subst ha <;> rfl
  case release =>
    simp only [Option.some.injEq] at ha
    subst ha; rfl
  case done =>
    simp only [Option.some.injEq] at ha
    subst ha; rfl
  case crashed => exact absurd ha (by simp)

theorem grabCount_mono_step (x y : State) (h : Step x y) :
    x.grabCount ≤ y.grabCount := by
  obtain ⟨a, ha⟩ := h
  cases a with
  | loopA => exact grabCount_mono_stepL x y ha
  | snapA => exact Nat.le_of_eq (grabCount_stepS x y ha).symm
  | stopA =>
      simp only [stepOf, stepStop, Option.some.injEq] at ha
      subst ha; exact Nat.le_refl _

theorem grabCount_mono_steps (x y : State) (h : Steps x y) :
    x.grabCount ≤ y.grabCount := by
  induction h with
  | refl => exact Nat.le_refl _
  | tail _ hstep ih => exact Nat.le_trans ih (grabCount_mono_step _ _ hstep)

theorem windowTs_stepL (g : Nat) (x y : State) (hx : WindowTs g x)
    (hgx : x.grabCount = g) (hgy : y.grabCount = g)
    (ha : stepL x = some y) : WindowTs g y := by
  obtain ⟨ht, hs⟩ := hx
  unfold stepL at ha
  cases hpc : x.loopPc <;> rw [hpc] at ha
  case check =>
    simp only [Option.some.injEq] at ha
    by_cases hstop : x.needToStop = true <;>
      simp only [hstop, if_true, if_false, Bool.not_eq_true] at ha <;>
      subst ha <;> exact ⟨fun _ => ht (by simp [hpc]), hs⟩
  case acquire =>
    cases hl : x.lock <;> rw [hl] at ha <;> simp only [Option.some.injEq] at ha
    · subst ha
      exact ⟨fun _ => ht (by simp [hpc]), hs⟩
    · exact absurd ha (by simp)
  case grab =>
    simp only [Option.some.injEq] at ha
    subst ha
    simp only [hgx] at hgy
    omega
  case stamp =>
    simp only [Option.some.injEq] at ha
    subst ha
    refine ⟨?_, hs⟩
    intro _ m hm
    simp only [Option.some.injEq] at hm
    omega
  case release =>
    simp only [Option.some.injEq] at ha
    subst ha
    exact ⟨fun _ => ht (by simp [hpc]), hs⟩
  case sleep =>
    simp only [Option.some.injEq] at ha
    subst ha
    exact ⟨fun _ => ht (by simp [hpc]), hs⟩
  case exited => exact absurd ha (by simp)

theorem windowTs_stepS (g : Nat) (x y : State) (hInv : Inv x)
    (hx : WindowTs g x) (ha : stepS x = some y) : WindowTs g y := by
  obtain ⟨ht, hs⟩ := hx
  unfold stepS at ha
  cases hpc : x.snapPc <;> rw [hpc] at ha
  case acquire =>
    cases hl : x.lock <;> rw [hl] at ha <;> simp only [Option.some.injEq] at ha
    · subst ha
      exact ⟨ht, hs⟩
    · exact absurd ha (by simp)
  case retrieve =>
    simp only [Option.some.injEq] at ha
    subst ha
    exact ⟨ht, hs⟩
  case readTs =>
    have hlock : x.lock = some .snap := hInv.2.1.mp (by simp [snapInCS, hpc])
    have hstamp : x.loopPc ≠ .stamp := by
      intro hc
      have := hInv.1.mp (by simp [loopInCS, hc])
      rw [hlock] at this
      exact absurd this (by simp)
    cases hts : x.timestamp <;> rw [hts] at ha <;>
      simp only [Option.some.injEq] at ha
    · subst ha
      refine ⟨?_, hs⟩
      intro _ m hm
      simp at hm
    · subst ha
      have hv := ht hstamp _ hts
      refine ⟨?_, ?_⟩ <;> intro m hm
      · intro hm'
        simp only [Option.some.injEq] at hm'
        omega
      · simp only [Option.some.injEq] at hm
        omega
  case release =>
    simp only [Option.some.injEq] at ha
    subst ha
    exact ⟨ht, hs⟩
  case done =>
    simp only [Option.some.injEq] at ha
    subst ha
    refine ⟨ht, ?_⟩
    intro m hm
    simp at hm
  case crashed => exact absurd ha (by simp)

theorem windowTs_step (g : Nat) (x y : State) (hInv : Inv x)
    (hx : WindowTs g x) (hgx : x.grabCount = g) (hgy : y.grabCount = g)
    (h : Step x y) : WindowTs g y := by
  obtain ⟨a, ha⟩ := h
  cases a with
  | loopA => exact windowTs_stepL g x y hx hgx hgy ha
  | snapA => exact windowTs_stepS g x y hInv hx ha
  | stopA =>
      simp only [stepOf, stepStop, Option.some.injEq] at ha
      subst ha
      exact hx

theorem windowTs_steps (g : Nat) (x y : State) (hInv : Inv x)
    (hsteps : Steps x y) (hgx : x.grabCount = g) (hgy : y.grabCount = g)
    (hx : WindowTs g x) : WindowTs g y := by
  induction hsteps with
  | refl => exact hx
  | @tail m y' hxm hstep ih =>
      have hm1 : x.grabCount ≤ m.grabCount := grabCount_mono_steps x m hxm
      have hm2 : m.grabCount ≤ y'.grabCount := grabCount_mono_step m y' hstep
      have hgm : m.grabCount = g := by omega
      exact windowTs_step g m y' (inv_of_steps x m hInv hxm) (ih hgm) hgm hgy
        hstep

/-- C7: idempotence of reads — any two timestamps stored by snapshot
reads in a window during which no new grab completes are equal; in
particular two consecutive `snapshot()` calls with no intervening
drain-loop grab return the same timestamp, since `snapshot` itself never
writes the frame slot. -/
theorem snapshot_twice_same_timestamp (s₀ s₁ s₂ : State) (t₁ t₂ : Nat)
    (hreach : Reachable s₀) (hcall : s₀.snapPc = .acquire)
    (h01 : Steps s₀ s₁) (h1 : s₁.snapTs = some t₁)
    (h12 : Steps s₁ s₂) (h2 : s₂.snapTs = some t₂)
    (hnograb : s₂.grabCount = s₀.grabCount) : t₁ = t₂ := by
  have hInv₀ := inv_reachable s₀ hreach
  have hbase : WindowTs s₀.grabCount s₀ := by
    constructor
    · intro hns m hm
      have h3 := hInv₀.2.2.1
      rw [tsOK, if_neg hns] at h3
      rw [h3, tsOf] at hm
      by_cases hz : s₀.grabCount = 0
      · rw [if_pos hz] at hm
        exact absurd hm (by simp)
      · rw [if_neg hz] at hm
        simp only [Option.some.injEq] at hm
        omega
    · intro m hm
      have h7 := hInv₀.2.2.2.2.2.2 (Or.inl hcall)
      rw [h7] at hm
      exact absurd hm (by simp)
  have hg1lo : s₀.grabCount ≤ s₁.grabCount := grabCount_mono_steps _ _ h01
  have hg1hi : s₁.grabCount ≤ s₂.grabCount := grabCount_mono_steps _ _ h12
  have hg1 : s₁.grabCount = s₀.grabCount := by omega
  have w1 : WindowTs s₀.grabCount s₁ :=
    windowTs_steps _ s₀ s₁ hInv₀ h01 rfl hg1 hbase
  have w2 : WindowTs s₀.grabCount s₂ :=
    windowTs_steps _ s₁ s₂ (inv_of_steps s₀ s₁ hInv₀ h01) h12 hg1 hnograb w1
  rw [w1.2 t₁ h1, w2.2 t₂ h2]

/-- Witness for C7: a first grab completes, the first snapshot call
returns stamp `1`, a second call with no grab in between also returns
stamp `1`. -/
theorem snapshot_twice_same_timestamp_witness : (1 : Nat) = 1 :=
  snapshot_twice_same_timestamp
    (applyTrace [Act.loopA, Act.loopA, Act.loopA, Act.loopA, Act.loopA] init)
    (applyTrace [Act.snapA, Act.snapA, Act.snapA, Act.snapA]
      (applyTrace [Act.loopA, Act.loopA, Act.loopA, Act.loopA, Act.loopA] init))
    (applyTrace [Act.snapA, Act.snapA, Act.snapA, Act.snapA]
      (applyTrace [Act.snapA, Act.snapA, Act.snapA, Act.snapA]
        (applyTrace [Act.loopA, Act.loopA, Act.loopA, Act.loopA, Act.loopA] init)))
    1 1 (reachable_applyTrace _) (by decide) (steps_applyTrace _ _) (by decide)
    (steps_applyTrace _ _) (by decide) (by decide)

/-- Witness for C5 at the state where `__exit__` has just set the stop
flag before the first iteration ran. -/
theorem stop_latency_bounded_witness :
    (applyTrace [Act.stopA] init).grabCount ≤
      (applyTrace [Act.stopA] init).grabCount + 1 ∧
    ((applyTrace [Act.stopA] init).lock ≠ some Tid.snap →
      (runLoopAlone 6 (applyTrace [Act.stopA] init)).loopPc = .exited) :=
  stop_latency_bounded (applyTrace [Act.stopA] init)
    (applyTrace [Act.stopA] init) (reachable_applyTrace _)
    Relation.ReflTransGen.refl (by decide)

/-- C8: one full drain-loop iteration, run from the top of the loop with
the lock free and the stop flag clear, takes exactly the six atomic
statements back to the loop head and modifies nothing but the frame
slot: the lock is free again, the stop flag and the whole snapshot-side
state are untouched, while the buffered frame is replaced by one new
grab and the timestamp is overwritten with that grab's stamp.  A second
iteration overwrites the slot again, so a frame that no snapshot ever
read is simply discarded — no per-iteration data accumulates. -/
theorem drain_iteration_touches_only_slot (s : State)
    (hpc : s.loopPc = .check) (hlock : s.lock = none)
    (hstop : s.needToStop = false) :
    (runLoopAlone 6 s).loopPc = .check ∧
    (runLoopAlone 6 s).lock = none ∧
    (runLoopAlone 6 s).needToStop = false ∧
    (runLoopAlone 6 s).snapPc = s.snapPc ∧
    (runLoopAlone 6 s).snapData = s.snapData ∧
    (runLoopAlone 6 s).snapTs = s.snapTs ∧
    (runLoopAlone 6 s).grabCount = s.grabCount + 1 ∧
    (runLoopAlone 6 s).timestamp = some (s.grabCount + 1) ∧
    (runLoopAlone 6 (runLoopAlone 6 s)).grabCount = s.grabCount + 2 ∧
    (runLoopAlone 6 (runLoopAlone 6 s)).timestamp = some (s.grabCount + 2) := by
  simp [runLoopAlone, stepLD, stepL, hpc, hlock, hstop]

/-- Witness for C8 from the start state. -/
theorem drain_iteration_touches_only_slot_witness :
    (runLoopAlone 6 init).grabCount = init.grabCount + 1 ∧
    (runLoopAlone 6 init).timestamp = some (init.grabCount + 1) ∧
    (runLoopAlone 6 (runLoopAlone 6 init)).timestamp =
      some (init.grabCount + 2) := by
  obtain ⟨_, _, _, _, _, _, h7, h8, _, h10⟩ :=
    drain_iteration_touches_only_slot init (by decide) (by decide) (by decide)
  exact ⟨h7, h8, h10⟩

/-- C6: for every reported `fps > 0` the drain loop's sleep interval is
`1 / (fps + 1)` seconds; for `fps = 0` — OpenCV's value when the rate is
unknown — and for any non-positive report it stays at the default
`0.01` seconds; in particular `fps = 30` gives `1/31` (≈ 0.032 s). -/
theorem computeSleep_spec (fps : ℚ) :
    (0 < fps → computeSleep fps = 1 / (fps + 1)) ∧
    (fps ≤ 0 → computeSleep fps = 1 / 100) ∧
    computeSleep 30 = 1 / 31 ∧ computeSleep 0 = 1 / 100 := by
  refine ⟨?_, ?_, ?_, ?_⟩
  · intro h
    simp [computeSleep, h]
  · intro h
    rw [computeSleep]
    rw [if_neg (not_lt.mpr h)]
    norm_num
  · norm_num [computeSleep]
  · norm_num [computeSleep]

/-- Witness for C6 discharging both guards: the reported-rate case at
`fps = 30` and the unknown-rate case at `fps = 0`. -/
theorem computeSleep_spec_witness :
    computeSleep 30 = 1 / (30 + 1) ∧ computeSleep 0 = 1 / 100 :=
  ⟨(computeSleep_spec 30).1 (by norm_num),
   (computeSleep_spec 0).2.1 (le_refl 0)⟩

/-- C3: when `retrieve()` reports failure, `snapshot()` raises
`RuntimeError` and yields no (partial) sample; the error is not retried
and aborts the drained-mode capture loop at the failing iteration,
whatever captures would have followed.  When `retrieve()` succeeds,
`snapshot()` returns the decoded data paired with the slot's
timestamp. -/
theorem snapshot_retrieve_failure_fatal (data ts : Nat)
    (rest : List (Bool × Nat × Nat)) :
    snapshotResult false data ts =
      Except.error "failed to retrieve the taken snapshot" ∧
    snapshotResult true data ts =
      Except.ok { data := data, timestamp := ts } ∧
    drainBufferRun ((false, data, ts) :: rest) =
      Except.error "failed to retrieve the taken snapshot" :=
  ⟨rfl, rfl, rfl⟩

/-- C4: stopping a `MyCamera` performs, in order, set-stop-flag, join
the loop thread, release the source: the flag is set before the join,
and every occurrence of the source release comes strictly after every
occurrence of the join — the source is never released before the loop
thread has been joined. -/
theorem exit_releases_source_only_after_join :
    exitSequence =
      [ExitEvent.setStopFlag, ExitEvent.joinLoopThread,
        ExitEvent.releaseSource] ∧
    (∀ i j : Fin exitSequence.length,
      exitSequence.get i = ExitEvent.setStopFlag →
      exitSequence.get j = ExitEvent.joinLoopThread → i < j) ∧
    (∀ i j : Fin exitSequence.length,
      exitSequence.get i = ExitEvent.joinLoopThread →
      exitSequence.get j = ExitEvent.releaseSource → i < j) := by
  refine ⟨rfl, ?_, ?_⟩ <;> decide

/-- Witness for C4 at the actual positions of the join and the release. -/
theorem exit_releases_source_only_after_join_witness :
    (⟨1, by decide⟩ : Fin exitSequence.length) < ⟨2, by decide⟩ :=
  exit_releases_source_only_after_join.2.2 ⟨1, by decide⟩ ⟨2, by decide⟩
    (by decide) (by decide)

theorem drain_iter_eq_map (w : ℚ) :
    drain_buffer_iter w =
      (stream_in_buffer_iter w).map (setCam CamObj.myCamera) := by
  by_cases h : w > 0 <;>
    simp [drain_buffer_iter, stream_in_buffer_iter, setCam, h]

theorem stream_iter_eq_map (w : ℚ) :
    stream_in_buffer_iter w =
      (drain_buffer_iter w).map (setCam CamObj.plainCamera) := by
  by_cases h : w > 0 <;>
    simp [drain_buffer_iter, stream_in_buffer_iter, setCam, h]

/-- C10: the drained-mode loop performs exactly the same sequence of
scheduling, sleeping, snapshot, save and upload steps as the
buffered-mode loop, iteration by iteration and over any whole run; the
two differ only in the camera object the snapshot is taken on
(`MyCamera` versus the plain `Camera`). -/
theorem drain_buffer_matches_stream_in_buffer (w : ℚ) (waits : List ℚ) :
    drain_buffer_iter w =
      (stream_in_buffer_iter w).map (setCam CamObj.myCamera) ∧
    stream_in_buffer_iter w =
      (drain_buffer_iter w).map (setCam CamObj.plainCamera) ∧
    drain_buffer_run waits =
      (stream_in_buffer_run waits).map (setCam CamObj.myCamera) ∧
    stream_in_buffer_run waits =
      (drain_buffer_run waits).map (setCam CamObj.plainCamera) := by
  refine ⟨drain_iter_eq_map w, stream_iter_eq_map w, ?_, ?_⟩
  · induction waits with
    | nil => rfl
    | cons w' ws ih =>
        simp only [stream_in_buffer_run, drain_buffer_run, List.flatMap_cons,
          List.map_append] at ih ⊢
        rw [drain_iter_eq_map w', ih]
  · induction waits with
    | nil => rfl
    | cons w' ws ih =>
        simp only [stream_in_buffer_run, drain_buffer_run, List.flatMap_cons,
          List.map_append] at ih ⊢
        rw [stream_iter_eq_map w', ih]

end CameraApp
